import Mathlib

/-!
Shallow embedding of the plugin type-definition synchronization mechanism of
`src/cordova.ts` (the `vscode-cordova` extension).

The JavaScript catalog object `pluginTypings` (loaded from
`pluginTypings.json`) is embedded as an association list from plugin
identifier to the `typingFile` field of its descriptor; `pluginTypings[p]`
becomes `catalogLookup cat p`, with `none` standing for `undefined`.

Filesystem collaborators (`CordovaProjectHelper`, `TsdHelper`, `fs`) are
inputs of the embedding: an `Env` records what each read would return, and a
`PassResult` records every side effect the pass issues (installer call,
`fs.unlink` attempts, telemetry, logs, and whether an uncaught `TypeError`
was thrown).
-/

namespace Cordova

/-- The catalog: plugin identifier to typing-file identifier, as read from
`pluginTypings.json`.  An association list models the JSON object. -/
abbrev Catalog := List (String × String)

/-- `pluginTypings[pluginName].typingFile` access: `none` models a missing
key (JS `undefined`). -/
def catalogLookup (cat : Catalog) (p : String) : Option String :=
  (cat.find? (fun e => e.1 == p)).map (fun e => e.2)

/-- JavaScript `Array.prototype.indexOf` on a string array: first index of
`x` in `xs`, `-1` when absent.  `cordova.ts` tests membership via
`indexOf(...) < 0`. -/
def jsIndexOf : List String → String → Int
  | [], _ => -1
  | y :: ys, x =>
    if y == x then 0
    else if jsIndexOf ys x < 0 then -1 else jsIndexOf ys x + 1

/-- `getNewTypeDefinitions` (`cordova.ts` lines 106-114): `none` for the
catalog models the missing `pluginTypings.json`, in which case the JS
function hits `return;` and yields `undefined` (modelled as `none`);
otherwise it filters the installed plugins to those present in the catalog
and maps each to its typing file. -/
def getNewTypeDefinitions (catalog : Option Catalog) (installedPlugins : List String) :
    Option (List String) :=
  match catalog with
  | none => none
  | some pluginTypings =>
    some (((installedPlugins.filter
        (fun pluginName => (catalogLookup pluginTypings pluginName).isSome)).map
      (fun pluginName => (catalogLookup pluginTypings pluginName).getD "")))

/-- The side effects of `addPluginTypeDefinitions`: the argument list of the
`TsdHelper.installTypings` call (`none` when the function returned before
reaching it), and the plugin names sent as anonymized `unknownPlugin`
telemetry events. -/
structure AddResult where
  installerCall : Option (List String)
  unknownTelemetry : List String
deriving DecidableEq

/-- `addPluginTypeDefinitions` (`cordova.ts` lines 116-137): with the
catalog missing it returns before calling the installer; otherwise
`typingsToAdd` keeps the installed plugins known to the catalog whose typing
file is not in `currentTypeDefs` (JS `indexOf < 0`), and every unknown
plugin produces a telemetry event and is dropped. -/
def addPluginTypeDefinitions (catalog : Option Catalog)
    (installedPlugins currentTypeDefs : List String) : AddResult :=
  match catalog with
  | none => { installerCall := none, unknownTelemetry := [] }
  | some pluginTypings =>
    let typingsToAdd :=
      (installedPlugins.filter (fun pluginName =>
        match catalogLookup pluginTypings pluginName with
        | some typingFile => decide (jsIndexOf currentTypeDefs typingFile < 0)
        | none => false)).map
        (fun pluginName => (catalogLookup pluginTypings pluginName).getD "")
    { installerCall := some typingsToAdd,
      unknownTelemetry :=
        installedPlugins.filter
          (fun pluginName => (catalogLookup pluginTypings pluginName).isNone) }

/-- The `forEach` body of `removePluginTypeDefinitions` over
`currentTypeDefs`, with `newTypeDefs` present: for each stale type
definition an `fs.unlink` is issued; `unlinkOk` tells whether that unlink
succeeds; a failure is only logged (the callback at `cordova.ts` lines
144-149) and the loop continues.  Returns (attempted, deleted, logged). -/
def removeLoop (newTypeDefs : List String) (unlinkOk : String → Bool) :
    List String → List String × List String × List String
  | [] => ([], [], [])
  | typeDef :: rest =>
    let r := removeLoop newTypeDefs unlinkOk rest
    if jsIndexOf newTypeDefs typeDef < 0 then
      if unlinkOk typeDef then (typeDef :: r.1, typeDef :: r.2.1, r.2.2)
      else (typeDef :: r.1, r.2.1, typeDef :: r.2.2)
    else r

/-- Side effects of `removePluginTypeDefinitions`: the files for which an
`fs.unlink` was issued, the subset whose unlink succeeded, the failures that
were logged, and whether the function threw an uncaught `TypeError`. -/
structure RemoveResult where
  attempted : List String
  deleted : List String
  loggedFailures : List String
  crashed : Bool
deriving DecidableEq

/-- `removePluginTypeDefinitions` (`cordova.ts` lines 139-152).  `newTypeDefs`
is `Option` because the caller passes the result of `getNewTypeDefinitions`,
which is `undefined` when the catalog is missing: then the condition
`newTypeDefs.indexOf(typeDef) < 0` throws a `TypeError` on the first
iteration, so with a non-empty `currentTypeDefs` the pass crashes before any
unlink is issued (and with an empty one the `forEach` body never runs). -/
def removePluginTypeDefinitions (currentTypeDefs : List String)
    (newTypeDefs : Option (List String)) (unlinkOk : String → Bool) : RemoveResult :=
  match newTypeDefs with
  | none =>
    if currentTypeDefs.isEmpty then
      { attempted := [], deleted := [], loggedFailures := [], crashed := false }
    else
      { attempted := [], deleted := [], loggedFailures := [], crashed := true }
  | some defs =>
    let r := removeLoop defs unlinkOk currentTypeDefs
    { attempted := r.1, deleted := r.2.1, loggedFailures := r.2.2, crashed := false }

/-- What the filesystem reads of one reconciliation pass would return.
`cordovaReaddir`/`ionicReaddir` are the `fs.readdir` results on the two
typings folders with `getRelativeTypeDefinitionFilePath` already applied to
each entry (target-relative, slash-normalized identifiers); `none` models a
readdir error. -/
structure Env where
  catalog : Option Catalog
  installedPlugins : List String
  cordovaFolderExists : Bool
  cordovaReaddir : Option (List String)
  ionicReaddir : Option (List String)

/-- Every side effect of one `updatePluginTypeDefinitions` pass. -/
structure PassResult where
  installerCall : Option (List String)
  unknownTelemetry : List String
  attemptedUnlinks : List String
  deletedFiles : List String
  loggedUnlinkFailures : List String
  ionicRead : Bool
  crashed : Bool
  catalogMissingLogged : Bool
deriving DecidableEq

/-- `updatePluginTypeDefinitions` (`cordova.ts` lines 158-187).  When the
primary (Cordova) typings folder does not exist, `addPluginTypeDefinitions`
runs with an empty current list and the function returns without reading any
folder.  Otherwise the Cordova folder listing becomes `currentTypeDefs`; the
ionic folder is also read (`ionicRead`), but line 180 calls
`currentTypeDefs.concat(...)` and discards the resulting array, so the ionic
entries never enter `currentTypeDefs`; then add runs, then remove with the
`newTypeDefs` computed at the top of the function. -/
def updatePluginTypeDefinitions (env : Env) (unlinkOk : String → Bool) : PassResult :=
  let newTypeDefs := getNewTypeDefinitions env.catalog env.installedPlugins
  if env.cordovaFolderExists then
    let currentTypeDefs :=
      match env.cordovaReaddir with
      | some cordovaTypeDefs => cordovaTypeDefs
      | none => []
    let add := addPluginTypeDefinitions env.catalog env.installedPlugins currentTypeDefs
    let rem := removePluginTypeDefinitions currentTypeDefs newTypeDefs unlinkOk
    { installerCall := add.installerCall,
      unknownTelemetry := add.unknownTelemetry,
      attemptedUnlinks := rem.attempted,
      deletedFiles := rem.deleted,
      loggedUnlinkFailures := rem.loggedFailures,
      ionicRead := true,
      crashed := rem.crashed,
      catalogMissingLogged := env.catalog.isNone }
  else
    let add := addPluginTypeDefinitions env.catalog env.installedPlugins []
    { installerCall := add.installerCall,
      unknownTelemetry := add.unknownTelemetry,
      attemptedUnlinks := [],
      deletedFiles := [],
      loggedUnlinkFailures := [],
      ionicRead := false,
      crashed := false,
      catalogMissingLogged := env.catalog.isNone }

/-- The desired typing set: the image of the installed plugins under the
catalog, unknown plugins filtered out — the list `getNewTypeDefinitions`
computes when the catalog is present. -/
def desiredTypings (cat : Catalog) (installed : List String) : List String :=
  ((installed.filter (fun p => (catalogLookup cat p).isSome)).map
    (fun p => (catalogLookup cat p).getD ""))

theorem getNewTypeDefinitions_some (cat : Catalog) (installed : List String) :
    getNewTypeDefinitions (some cat) installed = some (desiredTypings cat installed) := rfl

/-! ### Helper lemmas -/

theorem jsIndexOf_neg_iff (xs : List String) (x : String) :
    jsIndexOf xs x < 0 ↔ x ∉ xs := by
  induction xs with
  | nil => simp [jsIndexOf]
  | cons y ys ih =>
    simp only [jsIndexOf, List.mem_cons]
    by_cases h : y == x
    · have hy : y = x := by simpa using h
      simp [h, hy]
    · have hy : ¬ y = x := by simpa using h
      by_cases h2 : jsIndexOf ys x < 0
      · simp only [h, if_false, h2, if_true]
        constructor
        · intro _ hmem
          rcases hmem with hmem | hmem
          · exact hy hmem.symm
          · exact (ih.mp h2) hmem
        · intro _
          decide
      · simp only [h, if_false, h2, if_false]
        have hmem : x ∈ ys := by
          by_contra hx
          exact h2 (ih.mpr hx)
        constructor
        · intro hc
          omega
        · intro hx
          exact absurd (Or.inr hmem) hx

theorem mem_desiredTypings (cat : Catalog) (installed : List String) (t : String) :
    t ∈ desiredTypings cat installed ↔
      ∃ p, p ∈ installed ∧ catalogLookup cat p = some t := by
  simp only [desiredTypings, List.mem_map, List.mem_filter]
  constructor
  · rintro ⟨p, ⟨hp, hsome⟩, hval⟩
    rcases Option.isSome_iff_exists.mp (by simpa using hsome) with ⟨v, hv⟩
    refine ⟨p, hp, ?_⟩
    rw [hv]
    rw [hv] at hval
    simpa using hval
  · rintro ⟨p, hp, hv⟩
    exact ⟨p, ⟨hp, by simp [hv]⟩, by simp [hv]⟩

theorem add_installerCall_mem (cat : Catalog) (installed currentTypeDefs : List String)
    (t : String) :
    t ∈ ((addPluginTypeDefinitions (some cat) installed currentTypeDefs).installerCall.getD []) ↔
      ∃ p, p ∈ installed ∧ catalogLookup cat p = some t ∧ t ∉ currentTypeDefs := by
  simp only [addPluginTypeDefinitions, Option.getD_some, List.mem_map, List.mem_filter]
  constructor
  · rintro ⟨p, ⟨hp, hcond⟩, hval⟩
    rcases hlook : catalogLookup cat p with _ | v
    · rw [hlook] at hcond
      simp at hcond
    · rw [hlook] at hcond hval
      simp only [Option.getD_some] at hval
      subst hval
      refine ⟨p, hp, hlook, ?_⟩
      have : jsIndexOf currentTypeDefs v < 0 := by simpa using hcond
      exact (jsIndexOf_neg_iff _ _).mp this
  · rintro ⟨p, hp, hv, hnot⟩
    refine ⟨p, ⟨hp, ?_⟩, by simp [hv]⟩
    rw [hv]
    simpa using (jsIndexOf_neg_iff currentTypeDefs t).mpr hnot

theorem add_installerCall_subset (cat : Catalog) (installed currentTypeDefs : List String)
    (t : String)
    (ht : t ∈ ((addPluginTypeDefinitions (some cat) installed
        currentTypeDefs).installerCall.getD [])) :
    t ∈ desiredTypings cat installed := by
  rcases (add_installerCall_mem cat installed currentTypeDefs t).mp ht with ⟨p, hp, hv, _⟩
  exact (mem_desiredTypings cat installed t).mpr ⟨p, hp, hv⟩

theorem removeLoop_attempted (newTypeDefs : List String) (unlinkOk : String → Bool)
    (currentTypeDefs : List String) :
    (removeLoop newTypeDefs unlinkOk currentTypeDefs).1 =
      currentTypeDefs.filter (fun t => decide (jsIndexOf newTypeDefs t < 0)) := by
  induction currentTypeDefs with
  | nil => rfl
  | cons d rest ih =>
    simp only [removeLoop, List.filter_cons]
    by_cases h : jsIndexOf newTypeDefs d < 0
    · by_cases hok : unlinkOk d <;> simp [h, hok, ih]
    · simp [h, ih]

theorem removeLoop_deleted (newTypeDefs : List String) (unlinkOk : String → Bool)
    (currentTypeDefs : List String) :
    (removeLoop newTypeDefs unlinkOk currentTypeDefs).2.1 =
      currentTypeDefs.filter
        (fun t => decide (jsIndexOf newTypeDefs t < 0) && unlinkOk t) := by
  induction currentTypeDefs with
  | nil => rfl
  | cons d rest ih =>
    simp only [removeLoop, List.filter_cons]
    by_cases h : jsIndexOf newTypeDefs d < 0
    · by_cases hok : unlinkOk d <;> simp [h, hok, ih]
    · simp [h, ih]

theorem removeLoop_logged (newTypeDefs : List String) (unlinkOk : String → Bool)
    (currentTypeDefs : List String) :
    (removeLoop newTypeDefs unlinkOk currentTypeDefs).2.2 =
      currentTypeDefs.filter
        (fun t => decide (jsIndexOf newTypeDefs t < 0) && !(unlinkOk t)) := by
  induction currentTypeDefs with
  | nil => rfl
  | cons d rest ih =>
    simp only [removeLoop, List.filter_cons]
    by_cases h : jsIndexOf newTypeDefs d < 0
    · by_cases hok : unlinkOk d <;> simp [h, hok, ih]
    · simp [h, ih]

theorem remove_attempted_mem (currentTypeDefs newTypeDefs : List String)
    (unlinkOk : String → Bool) (t : String) :
    t ∈ (removePluginTypeDefinitions currentTypeDefs (some newTypeDefs) unlinkOk).attempted ↔
      t ∈ currentTypeDefs ∧ t ∉ newTypeDefs := by
  simp only [removePluginTypeDefinitions, removeLoop_attempted, List.mem_filter,
    decide_eq_true_eq]
  exact and_congr_right (fun _ => jsIndexOf_neg_iff newTypeDefs t)

theorem remove_deleted_mem (currentTypeDefs newTypeDefs : List String)
    (unlinkOk : String → Bool) (t : String) :
    t ∈ (removePluginTypeDefinitions currentTypeDefs (some newTypeDefs) unlinkOk).deleted ↔
      t ∈ currentTypeDefs ∧ t ∉ newTypeDefs ∧ unlinkOk t = true := by
  simp only [removePluginTypeDefinitions, removeLoop_deleted, List.mem_filter,
    Bool.and_eq_true, decide_eq_true_eq]
  rw [jsIndexOf_neg_iff newTypeDefs t]

theorem remove_logged_mem (currentTypeDefs newTypeDefs : List String)
    (unlinkOk : String → Bool) (t : String) :
    t ∈ (removePluginTypeDefinitions currentTypeDefs
        (some newTypeDefs) unlinkOk).loggedFailures ↔
      t ∈ currentTypeDefs ∧ t ∉ newTypeDefs ∧ unlinkOk t = false := by
  simp only [removePluginTypeDefinitions, removeLoop_logged, List.mem_filter,
    Bool.and_eq_true, Bool.not_eq_true', decide_eq_true_eq]
  rw [jsIndexOf_neg_iff newTypeDefs t]

/-- Unfolding of the pass when the primary typings folder exists and its
directory listing succeeded. -/
theorem pass_main (c : Option Catalog) (installed current : List String)
    (ir : Option (List String)) (unlinkOk : String → Bool) :
    updatePluginTypeDefinitions ⟨c, installed, true, some current, ir⟩ unlinkOk =
      { installerCall := (addPluginTypeDefinitions c installed current).installerCall,
        unknownTelemetry := (addPluginTypeDefinitions c installed current).unknownTelemetry,
        attemptedUnlinks := (removePluginTypeDefinitions current
          (getNewTypeDefinitions c installed) unlinkOk).attempted,
        deletedFiles := (removePluginTypeDefinitions current
          (getNewTypeDefinitions c installed) unlinkOk).deleted,
        loggedUnlinkFailures := (removePluginTypeDefinitions current
          (getNewTypeDefinitions c installed) unlinkOk).loggedFailures,
        ionicRead := true,
        crashed := (removePluginTypeDefinitions current
          (getNewTypeDefinitions c installed) unlinkOk).crashed,
        catalogMissingLogged := c.isNone } := rfl

/-- Unfolding of the pass when the primary typings folder does not exist. -/
theorem pass_bootstrap (c : Option Catalog) (installed : List String)
    (cr ir : Option (List String)) (unlinkOk : String → Bool) :
    updatePluginTypeDefinitions ⟨c, installed, false, cr, ir⟩ unlinkOk =
      { installerCall := (addPluginTypeDefinitions c installed []).installerCall,
        unknownTelemetry := (addPluginTypeDefinitions c installed []).unknownTelemetry,
        attemptedUnlinks := [],
        deletedFiles := [],
        loggedUnlinkFailures := [],
        ionicRead := false,
        crashed := false,
        catalogMissingLogged := c.isNone } := rfl

theorem add_empty_installerCall (cat : Catalog) (installed : List String) :
    (addPluginTypeDefinitions (some cat) installed []).installerCall =
      some (desiredTypings cat installed) := by
  simp only [addPluginTypeDefinitions, desiredTypings, Option.some.injEq]
  refine congrArg _ (List.filter_congr ?_)
  intro p _
  rcases catalogLookup cat p with _ | v <;> rfl

/-! ### Claim theorems -/

/-- C1: with the catalog present and the primary folder listed, one
reconciliation pass hands the installer exactly the set difference
`desired \ current` and issues unlink requests for exactly `current \
desired`, both differences taken by typing-file identifier over the same
before-pass `currentTypeDefs` snapshot. -/
theorem reconcile_installs_and_removes_set_differences (cat : Catalog)
    (installed current : List String) (ir : Option (List String))
    (unlinkOk : String → Bool) :
    (∀ t, t ∈ (updatePluginTypeDefinitions
          ⟨some cat, installed, true, some current, ir⟩ unlinkOk).installerCall.getD [] ↔
        t ∈ desiredTypings cat installed ∧ t ∉ current) ∧
    (∀ t, t ∈ (updatePluginTypeDefinitions
          ⟨some cat, installed, true, some current, ir⟩ unlinkOk).attemptedUnlinks ↔
        t ∈ current ∧ t ∉ desiredTypings cat installed) := by
  rw [pass_main]
  constructor
  · intro t
    rw [add_installerCall_mem, mem_desiredTypings]
    constructor
    · rintro ⟨p, hp, hv, hcur⟩
      exact ⟨⟨p, hp, hv⟩, hcur⟩
    · rintro ⟨⟨p, hp, hv⟩, hcur⟩
      exact ⟨p, hp, hv, hcur⟩
  · intro t
    rw [getNewTypeDefinitions_some, remove_attempted_mem]

/-- C5: when the primary typings folder does not exist, the pass hands the
installer exactly `desired(S)`, attempts no deletion, never reads the
secondary (ionic) folder, and does not crash. -/
theorem bootstrap_installs_desired (cat : Catalog) (installed : List String)
    (cr ir : Option (List String)) (unlinkOk : String → Bool) :
    (updatePluginTypeDefinitions
        ⟨some cat, installed, false, cr, ir⟩ unlinkOk).installerCall =
      some (desiredTypings cat installed) ∧
    (updatePluginTypeDefinitions
        ⟨some cat, installed, false, cr, ir⟩ unlinkOk).attemptedUnlinks = [] ∧
    (updatePluginTypeDefinitions
        ⟨some cat, installed, false, cr, ir⟩ unlinkOk).deletedFiles = [] ∧
    (updatePluginTypeDefinitions
        ⟨some cat, installed, false, cr, ir⟩ unlinkOk).ionicRead = false ∧
    (updatePluginTypeDefinitions
        ⟨some cat, installed, false, cr, ir⟩ unlinkOk).crashed = false := by
  rw [pass_bootstrap]
  exact ⟨add_empty_installerCall cat installed, rfl, rfl, rfl, rfl⟩

/-- C3 counter-evidence: with the catalog resource missing and the primary
typings folder existing with one declaration file, the pass throws an
uncaught `TypeError` (`newTypeDefs` is `undefined` when
`removePluginTypeDefinitions` evaluates `newTypeDefs.indexOf(...)`), instead
of aborting as a safe no-op. -/
theorem catalog_missing_crashes_on_nonempty_folder :
    (updatePluginTypeDefinitions
        ⟨none, ["cordova-plugin-camera"], true, some ["plugins/Camera.d.ts"], some []⟩
        (fun _ => true)).crashed = true ∧
    (updatePluginTypeDefinitions
        ⟨none, ["cordova-plugin-camera"], true, some ["plugins/Camera.d.ts"], some []⟩
        (fun _ => true)).installerCall = none ∧
    (updatePluginTypeDefinitions
        ⟨none, ["cordova-plugin-camera"], true, some ["plugins/Camera.d.ts"], some []⟩
        (fun _ => true)).catalogMissingLogged = true :=
  ⟨rfl, rfl, rfl⟩

/-- C2 counter-evidence: an identifier present only in the ionic folder
listing does not participate in the diffs — with no installed plugins it
should be stale and removed, yet no unlink is attempted, and the whole pass
result is identical to the one with an empty ionic listing (line 180 of
`cordova.ts` discards the `concat` result). -/
theorem ionic_listing_discarded :
    (updatePluginTypeDefinitions
        ⟨some [("cordova-plugin-camera", "plugins/Camera.d.ts")], [], true, some [],
          some ["ionic/Keyboard.d.ts"]⟩ (fun _ => true)).attemptedUnlinks = [] ∧
    updatePluginTypeDefinitions
        ⟨some [("cordova-plugin-camera", "plugins/Camera.d.ts")], [], true, some [],
          some ["ionic/Keyboard.d.ts"]⟩ (fun _ => true) =
      updatePluginTypeDefinitions
        ⟨some [("cordova-plugin-camera", "plugins/Camera.d.ts")], [], true, some [],
          some []⟩ (fun _ => true) :=
  ⟨rfl, rfl⟩

/-- C10: the install set and the removal set computed by a pass are a
deterministic function of the catalog contents, the installed-plugin list
and the current declaration-identifier snapshot: the ionic listing and the
unlink outcomes may differ arbitrarily without changing them. -/
theorem diff_computation_deterministic (c : Option Catalog) (installed : List String)
    (cf : Bool) (cr ir1 ir2 : Option (List String)) (ok1 ok2 : String → Bool) :
    (updatePluginTypeDefinitions ⟨c, installed, cf, cr, ir1⟩ ok1).installerCall =
      (updatePluginTypeDefinitions ⟨c, installed, cf, cr, ir2⟩ ok2).installerCall ∧
    (updatePluginTypeDefinitions ⟨c, installed, cf, cr, ir1⟩ ok1).attemptedUnlinks =
      (updatePluginTypeDefinitions ⟨c, installed, cf, cr, ir2⟩ ok2).attemptedUnlinks := by
  cases cf with
  | false => exact ⟨rfl, rfl⟩
  | true =>
    refine ⟨rfl, ?_⟩
    show (removePluginTypeDefinitions _ (getNewTypeDefinitions c installed) ok1).attempted =
      (removePluginTypeDefinitions _ (getNewTypeDefinitions c installed) ok2).attempted
    cases getNewTypeDefinitions c installed with
    | none => rfl
    | some defs =>
      simp only [removePluginTypeDefinitions, removeLoop_attempted]

theorem filter_of_filter_ne (c : String → Bool) (p : String) (h : c p = false)
    (l : List String) :
    (l.filter (fun q => q != p)).filter c = l.filter c := by
  induction l with
  | nil => rfl
  | cons a rest ih =>
    by_cases ha : a = p
    · subst ha
      simp [List.filter_cons, h, ih]
    · simp [List.filter_cons, ha, ih]

/-- C6: a plugin `p` absent from the catalog contributes nothing: dropping
every occurrence of `p` from the installed list changes neither the
installer call, nor the unlink attempts, nor the deletions; the pass never
crashes with the catalog present; and `p` is reported through the anonymized
`unknownPlugin` telemetry. -/
theorem unknown_plugin_tolerated (cat : Catalog) (p : String) (installed : List String)
    (cf : Bool) (cr ir : Option (List String)) (unlinkOk : String → Bool)
    (hp : catalogLookup cat p = none) (hmem : p ∈ installed) :
    (updatePluginTypeDefinitions ⟨some cat, installed, cf, cr, ir⟩ unlinkOk).installerCall =
      (updatePluginTypeDefinitions
        ⟨some cat, installed.filter (fun q => q != p), cf, cr, ir⟩ unlinkOk).installerCall ∧
    (updatePluginTypeDefinitions ⟨some cat, installed, cf, cr, ir⟩ unlinkOk).attemptedUnlinks =
      (updatePluginTypeDefinitions
        ⟨some cat, installed.filter (fun q => q != p), cf, cr, ir⟩ unlinkOk).attemptedUnlinks ∧
    (updatePluginTypeDefinitions ⟨some cat, installed, cf, cr, ir⟩ unlinkOk).deletedFiles =
      (updatePluginTypeDefinitions
        ⟨some cat, installed.filter (fun q => q != p), cf, cr, ir⟩ unlinkOk).deletedFiles ∧
    (updatePluginTypeDefinitions ⟨some cat, installed, cf, cr, ir⟩ unlinkOk).crashed = false ∧
    p ∈ (updatePluginTypeDefinitions ⟨some cat, installed, cf, cr, ir⟩ unlinkOk).unknownTelemetry := by
  have hcondAdd : ∀ cur : List String,
      (fun pluginName => match catalogLookup cat pluginName with
        | some typingFile => decide (jsIndexOf cur typingFile < 0)
        | none => false) p = false := by
    intro cur
    simp only [hp]
  have hadd : ∀ cur : List String,
      (addPluginTypeDefinitions (some cat) (installed.filter (fun q => q != p))
          cur).installerCall =
        (addPluginTypeDefinitions (some cat) installed cur).installerCall := by
    intro cur
    simp only [addPluginTypeDefinitions, Option.some.injEq]
    rw [filter_of_filter_ne _ p (hcondAdd cur) installed]
  have hdes : desiredTypings cat (installed.filter (fun q => q != p)) =
      desiredTypings cat installed := by
    simp only [desiredTypings]
    refine congrArg _ (filter_of_filter_ne _ p ?_ installed)
    rw [hp]
    rfl
  have htele : p ∈ installed.filter (fun q => (catalogLookup cat q).isNone) :=
    List.mem_filter.mpr ⟨hmem, by rw [hp]; rfl⟩
  cases cf with
  | false =>
    rw [pass_bootstrap, pass_bootstrap]
    exact ⟨(hadd []).symm, rfl, rfl, rfl, htele⟩
  | true =>
    cases cr with
    | none =>
      refine ⟨(hadd []).symm, ?_, ?_, ?_, htele⟩
      all_goals simp only [updatePluginTypeDefinitions, getNewTypeDefinitions_some, hdes]
      all_goals rfl
    | some current =>
      rw [pass_main, pass_main]
      refine ⟨(hadd current).symm, ?_, ?_, ?_, htele⟩
      all_goals simp only [getNewTypeDefinitions_some, hdes]
      all_goals rfl

/-- C7: with the catalog present, a failing unlink (`unlinkOk f = false`) is
logged and isolated: the pass does not crash, the set of attempted unlinks
is exactly the one of a failure-free pass, every other stale file whose
unlink succeeds is still deleted, and the failure of `f` is logged. -/
theorem deletion_failure_isolated (cat : Catalog) (installed current : List String)
    (ir : Option (List String)) (unlinkOk : String → Bool) (f : String)
    (hf : unlinkOk f = false) :
    (updatePluginTypeDefinitions
        ⟨some cat, installed, true, some current, ir⟩ unlinkOk).crashed = false ∧
    (updatePluginTypeDefinitions
        ⟨some cat, installed, true, some current, ir⟩ unlinkOk).attemptedUnlinks =
      (updatePluginTypeDefinitions
        ⟨some cat, installed, true, some current, ir⟩ (fun _ => true)).attemptedUnlinks ∧
    (∀ g, g ∈ (updatePluginTypeDefinitions
          ⟨some cat, installed, true, some current, ir⟩ unlinkOk).attemptedUnlinks →
        unlinkOk g = true →
        g ∈ (updatePluginTypeDefinitions
          ⟨some cat, installed, true, some current, ir⟩ unlinkOk).deletedFiles) ∧
    (f ∈ (updatePluginTypeDefinitions
          ⟨some cat, installed, true, some current, ir⟩ unlinkOk).attemptedUnlinks →
        f ∈ (updatePluginTypeDefinitions
          ⟨some cat, installed, true, some current, ir⟩ unlinkOk).loggedUnlinkFailures) := by
  rw [pass_main, pass_main]
  simp only [getNewTypeDefinitions_some]
  refine ⟨rfl, ?_, ?_, ?_⟩
  · simp only [removePluginTypeDefinitions, removeLoop_attempted]
  · intro g hg hok
    rcases (remove_attempted_mem _ _ _ g).mp hg with ⟨hcur, hnot⟩
    exact (remove_deleted_mem _ _ _ g).mpr ⟨hcur, hnot, hok⟩
  · intro hfmem
    rcases (remove_attempted_mem _ _ _ f).mp hfmem with ⟨hcur, hnot⟩
    exact (remove_logged_mem _ _ _ f).mpr ⟨hcur, hnot, hf⟩

/-- The typings-related side effects of `activate` (`cordova.ts` lines
68-77): `selfInstall` is the `TsdHelper.installTypings` call for the
reserved `'cordova'` catalog key (`CORDOVA_TYPINGS_QUERYSTRING`), issued
before and independently of the per-plugin pass; with the catalog missing,
`activate` returns before either happens.  The `.getD ""` stands for the
field access `pluginTypings[CORDOVA_TYPINGS_QUERYSTRING].typingFile`, which
presumes the reserved key is present, as the spec requires of the catalog. -/
def activateTypingsPhase (env : Env) (unlinkOk : String → Bool) :
    Option (List String) × Option PassResult :=
  match env.catalog with
  | none => (none, none)
  | some pluginTypings =>
    (some [(catalogLookup pluginTypings "cordova").getD ""],
      some (updatePluginTypeDefinitions env unlinkOk))

/-- C8: when the catalog loads and holds the reserved `'cordova'` self
entry, activation installs that entry's typing file unconditionally — the
self-install call is `some [tf]` whatever the installed-plugin list is. -/
theorem activate_installs_self_entry (cat : Catalog) (tf : String)
    (h : catalogLookup cat "cordova" = some tf) (installed : List String)
    (cf : Bool) (cr ir : Option (List String)) (unlinkOk : String → Bool) :
    (activateTypingsPhase ⟨some cat, installed, cf, cr, ir⟩ unlinkOk).1 = some [tf] := by
  simp only [activateTypingsPhase, h, Option.getD_some]

/-! ### Filesystem model for the idempotence claim -/

/-- State of the typings target directory: whether the two scan folders
exist, and the materialized declaration files, each named by its
target-relative slash-normalized identifier. -/
structure FSState where
  hasPluginsFolder : Bool
  hasIonicFolder : Bool
  files : List String

/-- Modelled from the spec: `CordovaProjectHelper.getCordovaPluginTypeDefsPath`
(missing from `src/`) is the primary scan folder `<target>/plugins`, so
listing it and relativizing each entry yields exactly the materialized
identifiers under `plugins/`. -/
def scanPlugins (files : List String) : List String :=
  files.filter (fun f => f.startsWith "plugins/")

/-- Modelled from the spec: `CordovaProjectHelper.getIonicPluginTypeDefsPath`
(missing from `src/`) is the secondary scan folder `<target>/ionic`. -/
def scanIonic (files : List String) : List String :=
  files.filter (fun f => f.startsWith "ionic/")

/-- Modelled from the spec: what the filesystem reads of one pass
(`existsSync`, `fs.readdir` composed with
`getRelativeTypeDefinitionFilePath`) return on a given target-directory
state, both directory listings succeeding. -/
def envOfState (catalog : Option Catalog) (installed : List String) (fs : FSState) : Env :=
  { catalog := catalog, installedPlugins := installed,
    cordovaFolderExists := fs.hasPluginsFolder,
    cordovaReaddir := if fs.hasPluginsFolder then some (scanPlugins fs.files) else none,
    ionicReaddir := if fs.hasIonicFolder then some (scanIonic fs.files) else none }

/-- Modelled from the spec: the effect of a pass's side effects on the
target directory when nothing else interferes — `TsdHelper.installTypings`
(missing from `src/`) idempotently materializes exactly the missing files of
its argument list, creating folders as needed, and every issued unlink
succeeds. -/
def applyPass (fs : FSState) (r : PassResult) : FSState :=
  let installedFiles := r.installerCall.getD []
  let kept := fs.files.filter (fun f => !(r.deletedFiles.contains f))
  { hasPluginsFolder :=
      fs.hasPluginsFolder || installedFiles.any (fun f => f.startsWith "plugins/"),
    hasIonicFolder :=
      fs.hasIonicFolder || installedFiles.any (fun f => f.startsWith "ionic/"),
    files := kept ++ installedFiles.filter (fun f => !(kept.contains f)) }

/-- One reconciliation pass applied to a target-directory state. -/
def reconcileOnce (catalog : Option Catalog) (installed : List String)
    (fs : FSState) : FSState :=
  applyPass fs (updatePluginTypeDefinitions (envOfState catalog installed fs) (fun _ => true))

theorem mem_applyPass_files (fs : FSState) (r : PassResult) (t : String) :
    t ∈ (applyPass fs r).files ↔
      (t ∈ fs.files ∧ t ∉ r.deletedFiles) ∨ t ∈ r.installerCall.getD [] := by
  simp [applyPass]
  tauto

theorem pass_envOfState_true (c : Option Catalog) (installed : List String) (fs : FSState)
    (hb : fs.hasPluginsFolder = true) (unlinkOk : String → Bool) :
    updatePluginTypeDefinitions (envOfState c installed fs) unlinkOk =
      updatePluginTypeDefinitions ⟨c, installed, true, some (scanPlugins fs.files),
        if fs.hasIonicFolder then some (scanIonic fs.files) else none⟩ unlinkOk := by
  simp [envOfState, hb]

theorem pass_envOfState_false (c : Option Catalog) (installed : List String) (fs : FSState)
    (hb : fs.hasPluginsFolder = false) (unlinkOk : String → Bool) :
    updatePluginTypeDefinitions (envOfState c installed fs) unlinkOk =
      updatePluginTypeDefinitions ⟨c, installed, false, none,
        if fs.hasIonicFolder then some (scanIonic fs.files) else none⟩ unlinkOk := by
  simp [envOfState, hb]

theorem reconcile_install_mem (cat : Catalog) (installed : List String) (fs : FSState)
    (unlinkOk : String → Bool) (t : String) :
    t ∈ (updatePluginTypeDefinitions (envOfState (some cat) installed fs)
        unlinkOk).installerCall.getD [] ↔
      t ∈ desiredTypings cat installed ∧
        (fs.hasPluginsFolder = true → t ∉ scanPlugins fs.files) := by
  cases hb : fs.hasPluginsFolder with
  | false =>
    rw [pass_envOfState_false _ _ _ hb, pass_bootstrap]
    simp only [add_empty_installerCall, Option.getD_some]
    constructor
    · intro ht
      exact ⟨ht, fun hcon => absurd hcon (by decide)⟩
    · exact fun h => h.1
  | true =>
    rw [pass_envOfState_true _ _ _ hb, pass_main, add_installerCall_mem]
    rw [mem_desiredTypings]
    constructor
    · rintro ⟨p, hp, hv, hcur⟩
      exact ⟨⟨p, hp, hv⟩, fun _ => hcur⟩
    · rintro ⟨⟨p, hp, hv⟩, hcur⟩
      exact ⟨p, hp, hv, hcur rfl⟩

theorem reconcile_attempted_mem (cat : Catalog) (installed : List String) (fs : FSState)
    (unlinkOk : String → Bool) (t : String) :
    t ∈ (updatePluginTypeDefinitions (envOfState (some cat) installed fs)
        unlinkOk).attemptedUnlinks ↔
      fs.hasPluginsFolder = true ∧ t ∈ scanPlugins fs.files ∧
        t ∉ desiredTypings cat installed := by
  cases hb : fs.hasPluginsFolder with
  | false =>
    rw [pass_envOfState_false _ _ _ hb, pass_bootstrap]
    simp
  | true =>
    rw [pass_envOfState_true _ _ _ hb, pass_main, getNewTypeDefinitions_some,
      remove_attempted_mem]
    simp

theorem reconcile_deleted_mem (cat : Catalog) (installed : List String) (fs : FSState)
    (unlinkOk : String → Bool) (t : String) :
    t ∈ (updatePluginTypeDefinitions (envOfState (some cat) installed fs)
        unlinkOk).deletedFiles ↔
      fs.hasPluginsFolder = true ∧ t ∈ scanPlugins fs.files ∧
        t ∉ desiredTypings cat installed ∧ unlinkOk t = true := by
  cases hb : fs.hasPluginsFolder with
  | false =>
    rw [pass_envOfState_false _ _ _ hb, pass_bootstrap]
    simp
  | true =>
    rw [pass_envOfState_true _ _ _ hb, pass_main, getNewTypeDefinitions_some,
      remove_deleted_mem]
    simp

/-- Every desired typing file is materialized after one pass. -/
theorem desired_mem_after_reconcile (cat : Catalog) (installed : List String)
    (fs : FSState) (t : String) (ht : t ∈ desiredTypings cat installed) :
    t ∈ (reconcileOnce (some cat) installed fs).files := by
  rw [reconcileOnce, mem_applyPass_files]
  by_cases hcur : fs.hasPluginsFolder = true ∧ t ∈ scanPlugins fs.files
  · refine Or.inl ⟨List.mem_of_mem_filter hcur.2, ?_⟩
    rw [reconcile_deleted_mem]
    rintro ⟨_, _, hnot, _⟩
    exact hnot ht
  · refine Or.inr ?_
    rw [reconcile_install_mem]
    exact ⟨ht, fun hb hmem => hcur ⟨hb, hmem⟩⟩

/-- C4: running the pass a second time on the state produced by a first
pass (same catalog, same installed plugins, no intervening changes, all
first-pass mutations applied) attempts no unlink, deletes nothing, and asks
the installer only for files that already exist — the idempotent installer
has no work to do. -/
theorem reconcile_idempotent (cat : Catalog) (installed : List String) (fs : FSState)
    (hWF : fs.hasPluginsFolder = false → scanPlugins fs.files = []) :
    (updatePluginTypeDefinitions
        (envOfState (some cat) installed (reconcileOnce (some cat) installed fs))
        (fun _ => true)).attemptedUnlinks = [] ∧
    (updatePluginTypeDefinitions
        (envOfState (some cat) installed (reconcileOnce (some cat) installed fs))
        (fun _ => true)).deletedFiles = [] ∧
    ∀ t ∈ (updatePluginTypeDefinitions
        (envOfState (some cat) installed (reconcileOnce (some cat) installed fs))
        (fun _ => true)).installerCall.getD [],
      t ∈ (reconcileOnce (some cat) installed fs).files := by
  have hscan1 : ∀ t, t ∈ scanPlugins (reconcileOnce (some cat) installed fs).files →
      t ∈ desiredTypings cat installed := by
    intro t ht
    have hmem := List.mem_filter.mp ht
    rcases (mem_applyPass_files fs _ t).mp hmem.1 with ⟨hfs, hdel⟩ | hinst
    · cases hb : fs.hasPluginsFolder with
      | false =>
        have : t ∈ scanPlugins fs.files := List.mem_filter.mpr ⟨hfs, hmem.2⟩
        rw [hWF hb] at this
        exact absurd this (List.not_mem_nil t)
      | true =>
        have hcur : t ∈ scanPlugins fs.files := List.mem_filter.mpr ⟨hfs, hmem.2⟩
        by_contra hnot
        exact hdel ((reconcile_deleted_mem cat installed fs _ t).mpr ⟨hb, hcur, hnot, rfl⟩)
    · exact ((reconcile_install_mem cat installed fs _ t).mp hinst).1
  refine ⟨?_, ?_, ?_⟩
  · rw [List.eq_nil_iff_forall_not_mem]
    intro t ht
    rcases (reconcile_attempted_mem cat installed _ _ t).mp ht with ⟨_, hmem, hnot⟩
    exact hnot (hscan1 t hmem)
  · rw [List.eq_nil_iff_forall_not_mem]
    intro t ht
    rcases (reconcile_deleted_mem cat installed _ _ t).mp ht with ⟨_, hmem, hnot, _⟩
    exact hnot (hscan1 t hmem)
  · intro t ht
    exact desired_mem_after_reconcile cat installed fs t
      ((reconcile_install_mem cat installed _ _ t).mp ht).1

/-! ### Witnesses -/

/-- A concrete catalog for witness instances, shaped like
`pluginTypings.json`: the reserved `cordova` self entry and one plugin. -/
def sampleCatalog : Catalog :=
  [("cordova", "plugins/Cordova.d.ts"), ("cordova-plugin-camera", "plugins/Camera.d.ts")]

theorem reconcile_idempotent_witness :
    ((⟨false, false, []⟩ : FSState).hasPluginsFolder = false →
      scanPlugins (⟨false, false, []⟩ : FSState).files = []) ∧
    ((updatePluginTypeDefinitions
        (envOfState (some sampleCatalog) ["cordova-plugin-camera"]
          (reconcileOnce (some sampleCatalog) ["cordova-plugin-camera"] ⟨false, false, []⟩))
        (fun _ => true)).attemptedUnlinks = [] ∧
      (updatePluginTypeDefinitions
        (envOfState (some sampleCatalog) ["cordova-plugin-camera"]
          (reconcileOnce (some sampleCatalog) ["cordova-plugin-camera"] ⟨false, false, []⟩))
        (fun _ => true)).deletedFiles = [] ∧
      ∀ t ∈ (updatePluginTypeDefinitions
        (envOfState (some sampleCatalog) ["cordova-plugin-camera"]
          (reconcileOnce (some sampleCatalog) ["cordova-plugin-camera"] ⟨false, false, []⟩))
        (fun _ => true)).installerCall.getD [],
        t ∈ (reconcileOnce (some sampleCatalog) ["cordova-plugin-camera"]
          ⟨false, false, []⟩).files) :=
  ⟨by decide,
    reconcile_idempotent sampleCatalog ["cordova-plugin-camera"] ⟨false, false, []⟩
      (fun _ => rfl)⟩

theorem unknown_plugin_tolerated_witness :
    (catalogLookup sampleCatalog "unknown-plugin" = none ∧
      "unknown-plugin" ∈ ["unknown-plugin", "cordova-plugin-camera"]) ∧
    ((updatePluginTypeDefinitions
        ⟨some sampleCatalog, ["unknown-plugin", "cordova-plugin-camera"], true,
          some ["plugins/Old.d.ts"], some []⟩ (fun _ => true)).installerCall =
      (updatePluginTypeDefinitions
        ⟨some sampleCatalog,
          ["unknown-plugin", "cordova-plugin-camera"].filter (fun q => q != "unknown-plugin"),
          true, some ["plugins/Old.d.ts"], some []⟩ (fun _ => true)).installerCall ∧
    (updatePluginTypeDefinitions
        ⟨some sampleCatalog, ["unknown-plugin", "cordova-plugin-camera"], true,
          some ["plugins/Old.d.ts"], some []⟩ (fun _ => true)).attemptedUnlinks =
      (updatePluginTypeDefinitions
        ⟨some sampleCatalog,
          ["unknown-plugin", "cordova-plugin-camera"].filter (fun q => q != "unknown-plugin"),
          true, some ["plugins/Old.d.ts"], some []⟩ (fun _ => true)).attemptedUnlinks ∧
    (updatePluginTypeDefinitions
        ⟨some sampleCatalog, ["unknown-plugin", "cordova-plugin-camera"], true,
          some ["plugins/Old.d.ts"], some []⟩ (fun _ => true)).deletedFiles =
      (updatePluginTypeDefinitions
        ⟨some sampleCatalog,
          ["unknown-plugin", "cordova-plugin-camera"].filter (fun q => q != "unknown-plugin"),
          true, some ["plugins/Old.d.ts"], some []⟩ (fun _ => true)).deletedFiles ∧
    (updatePluginTypeDefinitions
        ⟨some sampleCatalog, ["unknown-plugin", "cordova-plugin-camera"], true,
          some ["plugins/Old.d.ts"], some []⟩ (fun _ => true)).crashed = false ∧
    "unknown-plugin" ∈ (updatePluginTypeDefinitions
        ⟨some sampleCatalog, ["unknown-plugin", "cordova-plugin-camera"], true,
          some ["plugins/Old.d.ts"], some []⟩ (fun _ => true)).unknownTelemetry) :=
  ⟨⟨rfl, by decide⟩,
    unknown_plugin_tolerated sampleCatalog "unknown-plugin"
      ["unknown-plugin", "cordova-plugin-camera"] true (some ["plugins/Old.d.ts"]) (some [])
      (fun _ => true) rfl (by decide)⟩

theorem deletion_failure_isolated_witness :
    ((fun s => !(s == "plugins/Stale.d.ts")) "plugins/Stale.d.ts" = false) ∧
    ((updatePluginTypeDefinitions
        ⟨some sampleCatalog, [], true, some ["plugins/Stale.d.ts", "plugins/Stale2.d.ts"],
          some []⟩ (fun s => !(s == "plugins/Stale.d.ts"))).crashed = false ∧
    (updatePluginTypeDefinitions
        ⟨some sampleCatalog, [], true, some ["plugins/Stale.d.ts", "plugins/Stale2.d.ts"],
          some []⟩ (fun s => !(s == "plugins/Stale.d.ts"))).attemptedUnlinks =
      (updatePluginTypeDefinitions
        ⟨some sampleCatalog, [], true, some ["plugins/Stale.d.ts", "plugins/Stale2.d.ts"],
          some []⟩ (fun _ => true)).attemptedUnlinks ∧
    (∀ g, g ∈ (updatePluginTypeDefinitions
          ⟨some sampleCatalog, [], true, some ["plugins/Stale.d.ts", "plugins/Stale2.d.ts"],
            some []⟩ (fun s => !(s == "plugins/Stale.d.ts"))).attemptedUnlinks →
        (fun s => !(s == "plugins/Stale.d.ts")) g = true →
        g ∈ (updatePluginTypeDefinitions
          ⟨some sampleCatalog, [], true, some ["plugins/Stale.d.ts", "plugins/Stale2.d.ts"],
            some []⟩ (fun s => !(s == "plugins/Stale.d.ts"))).deletedFiles) ∧
    ("plugins/Stale.d.ts" ∈ (updatePluginTypeDefinitions
          ⟨some sampleCatalog, [], true, some ["plugins/Stale.d.ts", "plugins/Stale2.d.ts"],
            some []⟩ (fun s => !(s == "plugins/Stale.d.ts"))).attemptedUnlinks →
        "plugins/Stale.d.ts" ∈ (updatePluginTypeDefinitions
          ⟨some sampleCatalog, [], true, some ["plugins/Stale.d.ts", "plugins/Stale2.d.ts"],
            some []⟩ (fun s => !(s == "plugins/Stale.d.ts"))).loggedUnlinkFailures)) :=
  ⟨rfl,
    deletion_failure_isolated sampleCatalog [] ["plugins/Stale.d.ts", "plugins/Stale2.d.ts"]
      (some []) (fun s => !(s == "plugins/Stale.d.ts")) "plugins/Stale.d.ts" rfl⟩

theorem activate_installs_self_entry_witness :
    (catalogLookup sampleCatalog "cordova" = some "plugins/Cordova.d.ts") ∧
    (activateTypingsPhase
        ⟨some sampleCatalog, ["cordova-plugin-camera"], true, some [], some []⟩
        (fun _ => true)).1 = some ["plugins/Cordova.d.ts"] :=
  ⟨rfl,
    activate_installs_self_entry sampleCatalog "plugins/Cordova.d.ts" rfl
      ["cordova-plugin-camera"] true (some []) (some []) (fun _ => true)⟩

end Cordova
